import Mathlib

/-!
Verification of the `cala` time core (`src/when.rs`).

The development shallowly embeds the two components of the time core:

* `Duration` — the exact fractional quantity `seconds / denominator`
  (`seconds : i32`, `denominator : u32`), with the `Div<i32>` / `Mul<i32>`
  operator implementations;
* `Clock` — a UTC instant backed by a nanosecond timeline, with the
  constructors `Clock::utc` / `Clock::local`, the calendar accessors, and
  the elapsed-units algorithm `Clock::since`.

Machine integers are modelled as `Int`/`Nat` with explicit two's-complement
wrapping (`wrap32`, `wrap64`) exactly where the Rust code performs an `as`
cast or a release-mode arithmetic overflow can occur.  Rust's `/` and `%`
on signed integers truncate toward zero, so they are modelled by
`Int.tdiv` / `Int.tmod`; a Rust division or remainder by zero panics, which
is modelled by an `Option` result (`none` = panic).  `Clock::utc` and
`Clock::local` call chrono's panicking `TimeZone::ymd` / `and_hms`
constructors, so their result type is `Except Unit (Option Clock)`:
`Except.error ()` models the panic raised inside chrono for out-of-range
fields, and the `Option` layer is the `Option<Self>` of the Rust signature
(which the code only ever fills with `Some`).

The external calendar service (the `chrono` crate) is not part of this
repository; everything under "calendar service model" below is modelled
from the spec: a proleptic Gregorian calendar at nanosecond resolution
with astronomical year numbering, dates ranging over chrono's year range
-262144..=262143, and weekdays counted from Sunday = 0.
-/

/-- Two's-complement wrap of an unbounded integer into the `i32` range,
modelling Rust release-mode overflow semantics and `as i32` casts. -/
def wrap32 (x : ℤ) : ℤ :=
  (x + 2147483648) % 4294967296 - 2147483648

/-- Two's-complement wrap of an unbounded integer into the `i64` range,
modelling the `as i64` casts (which wrap in every build profile) and the
release-mode wrap of the final `i64` addition in `Clock::since`. -/
def wrap64 (x : ℤ) : ℤ :=
  (x + 9223372036854775808) % 18446744073709551616 - 9223372036854775808

/-- Bit-reinterpretation of an `i32` value as a `u32` (`other as u32`). -/
def u32OfI32 (x : ℤ) : ℕ :=
  (x % 4294967296).toNat

/-- An amount of time: the fraction `seconds / denominator` of a second.
`seconds : i32` carries the sign, `denominator : u32`. -/
structure Duration where
  seconds : ℤ
  denominator : ℕ
  deriving DecidableEq

/-- `Duration::new`: constructs the value as given, with no validation of
`denominator ≠ 0`. -/
def Duration.new (seconds : ℤ) (denominator : ℕ) : Duration :=
  { seconds := seconds, denominator := denominator }

/-- `impl Div<i32> for Duration`: a negative divisor moves the sign onto
`seconds` and is replaced by its negation; then the denominator is
multiplied by `other as u32`.  The negations and the `u32` multiply wrap
(release semantics). -/
def Duration.div (self : Duration) (other : ℤ) : Duration :=
  let s := if other < 0 then wrap32 (-self.seconds) else self.seconds
  let o := if other < 0 then wrap32 (-other) else other
  { seconds := s, denominator := self.denominator * u32OfI32 o % 4294967296 }

/-- `impl Mul<i32> for Duration`: a negative factor moves the sign onto
`seconds` and is replaced by its negation; then `seconds` is multiplied by
the factor.  The negations and the `i32` multiply wrap (release
semantics). -/
def Duration.mul (self : Duration) (other : ℤ) : Duration :=
  let s := if other < 0 then wrap32 (-self.seconds) else self.seconds
  let o := if other < 0 then wrap32 (-other) else other
  { seconds := wrap32 (s * o), denominator := self.denominator }

/-- 1 nanosecond. -/
def NANOSECOND : Duration := Duration.new 1 1000000000
/-- 1 microsecond. -/
def MICROSECOND : Duration := Duration.new 1 1000000
/-- 1 millisecond. -/
def MILLISECOND : Duration := Duration.new 1 1000
/-- 1 second. -/
def SECOND : Duration := Duration.new 1 1
/-- 1 minute. -/
def MINUTE : Duration := Duration.new 60 1
/-- 1 hour. -/
def HOUR : Duration := Duration.new (60 * 60) 1
/-- 1 day. -/
def DAY : Duration := Duration.new (24 * 60 * 60) 1

/-- Month of the year (`#[repr(u8)]`, discriminants 1..=12). -/
inductive Month where
  | Jan | Feb | Mar | Apr | May | Jun | Jul | Aug | Sep | Oct | Nov | Dec
  deriving DecidableEq

/-- The `u8` discriminant of a `Month` value. -/
def Month.toNat : Month → ℕ
  | .Jan => 1 | .Feb => 2 | .Mar => 3 | .Apr => 4 | .May => 5 | .Jun => 6
  | .Jul => 7 | .Aug => 8 | .Sep => 9 | .Oct => 10 | .Nov => 11 | .Dec => 12

/-- Which day of the week (`#[repr(u8)]`, discriminants 0..=6). -/
inductive DayOfWeek where
  | Sunday | Monday | Tuesday | Wednesday | Thursday | Friday | Saturday
  deriving DecidableEq

/-- The `u8` discriminant of a `DayOfWeek` value. -/
def DayOfWeek.toNat : DayOfWeek → ℕ
  | .Sunday => 0 | .Monday => 1 | .Tuesday => 2 | .Wednesday => 3
  | .Thursday => 4 | .Friday => 5 | .Saturday => 6

/-- Model of `unsafe { std::mem::transmute(month) }` in `Clock::month`:
a byte holding the discriminant of a variant reinterprets to that variant;
any other byte has no corresponding variant, which is undefined behavior in
Rust — modelled by `none` (no defined result, in particular no defined
error value). -/
def transmuteMonth (n : ℕ) : Option Month :=
  match n with
  | 1 => some .Jan | 2 => some .Feb | 3 => some .Mar | 4 => some .Apr
  | 5 => some .May | 6 => some .Jun | 7 => some .Jul | 8 => some .Aug
  | 9 => some .Sep | 10 => some .Oct | 11 => some .Nov | 12 => some .Dec
  | _ => none

/-- Model of `unsafe { std::mem::transmute(dayofweek) }` in
`Clock::dayofweek`; `none` models the undefined behavior on a byte with no
corresponding variant. -/
def transmuteDayOfWeek (n : ℕ) : Option DayOfWeek :=
  match n with
  | 0 => some .Sunday | 1 => some .Monday | 2 => some .Tuesday
  | 3 => some .Wednesday | 4 => some .Thursday | 5 => some .Friday
  | 6 => some .Saturday
  | _ => none

/-! ## Calendar service model

Modelled from the spec: the external calendar service (the `chrono`
crate) — current-time capture aside, it provides a proleptic Gregorian
calendar with astronomical year numbering at nanosecond resolution,
validated date construction over the year range -262144..=262143, calendar
field decomposition, and weekdays counted from Sunday = 0.  Instants are
represented as the signed count of nanoseconds since 0001-01-01T00:00:00
UTC (a Monday in the proleptic Gregorian calendar). -/

/-- Proleptic Gregorian leap-year rule (astronomical year numbering). -/
def isLeap (y : ℤ) : Bool :=
  decide ((y % 4 = 0 ∧ y % 100 ≠ 0) ∨ y % 400 = 0)

/-- Length in days of month `m` (1..=12) in a year of leapness `leap`. -/
def monthLen (leap : Bool) (m : ℕ) : ℕ :=
  match m with
  | 1 => 31 | 2 => if leap then 29 else 28 | 3 => 31 | 4 => 30
  | 5 => 31 | 6 => 30 | 7 => 31 | 8 => 31 | 9 => 30 | 10 => 31
  | 11 => 30 | 12 => 31
  | _ => 0

/-- Days strictly before month `m` (1..=12) in a year of leapness `leap`. -/
def cumMonthDays (leap : Bool) (m : ℕ) : ℕ :=
  match m with
  | 1 => 0 | 2 => 31
  | 3 => if leap then 60 else 59
  | 4 => if leap then 91 else 90
  | 5 => if leap then 121 else 120
  | 6 => if leap then 152 else 151
  | 7 => if leap then 182 else 181
  | 8 => if leap then 213 else 212
  | 9 => if leap then 244 else 243
  | 10 => if leap then 274 else 273
  | 11 => if leap then 305 else 304
  | 12 => if leap then 335 else 334
  | _ => 0

/-- Length of year `y` in days. -/
def daysInYear (y : ℤ) : ℕ :=
  if isLeap y then 366 else 365

/-- Days in month `m` of year `y`. -/
def daysInMonth (y : ℤ) (m : ℕ) : ℕ :=
  monthLen (isLeap y) m

/-- Day number of January 1 of year `y`, counted from 0001-01-01 = day 0
(proleptic Gregorian; `/` is floor division here since the divisors are
positive). -/
def daysBeforeYear (y : ℤ) : ℤ :=
  365 * (y - 1) + (y - 1) / 4 - (y - 1) / 100 + (y - 1) / 400

/-- Day number of the calendar date `y-m-d`, counted from 0001-01-01. -/
def dayNumberOfDate (y : ℤ) (m d : ℕ) : ℤ :=
  daysBeforeYear y + (cumMonthDays (isLeap y) m : ℤ) + ((d : ℤ) - 1)

/-- Nanoseconds per day. -/
def nsPerDay : ℤ := 86400000000000

/-- The UTC timeline value of the calendar fields `y-mo-d h:mi:s`. -/
def utcNanos (y : ℤ) (mo d h mi s : ℕ) : ℤ :=
  dayNumberOfDate y mo d * nsPerDay + ((h * 3600 + mi * 60 + s : ℕ) : ℤ) * 1000000000

/-- Validity of calendar fields, as checked by the calendar service's
`ymd` / `and_hms` constructors (year range as in chrono). -/
abbrev validDate (y : ℤ) (mo d h mi s : ℕ) : Prop :=
  -262144 ≤ y ∧ y ≤ 262143 ∧ 1 ≤ mo ∧ mo ≤ 12 ∧ 1 ≤ d ∧ d ≤ daysInMonth y mo ∧
    h ≤ 23 ∧ mi ≤ 59 ∧ s ≤ 59

/-- Year search inside a 400-year cycle: starting at year `y` with `r`
days remaining, step year by year until the remaining days fall inside the
current year.  `fuel` bounds the recursion (400 suffices for any day
offset inside one cycle). -/
def yearLoop : ℕ → ℤ → ℕ → ℤ × ℕ
  | 0, y, r => (y, r)
  | fuel + 1, y, r =>
    if r < daysInYear y then (y, r) else yearLoop fuel (y + 1) (r - daysInYear y)

/-- Month search inside a year: starting at month `m` with `r` days
remaining, step month by month until the remaining days fall inside the
current month. -/
def monthLoop (leap : Bool) : ℕ → ℕ → ℕ → ℕ × ℕ
  | 0, m, r => (m, r)
  | fuel + 1, m, r =>
    if r < monthLen leap m then (m, r)
    else monthLoop leap fuel (m + 1) (r - monthLen leap m)

/-- Decompose a day number (days since 0001-01-01, possibly negative) into
`(year, month, day-of-month)`: split off whole 400-year cycles of 146097
days, then search the year and the month. -/
def civilFromDays (z : ℤ) : ℤ × ℕ × ℕ :=
  let c := z / 146097
  let r := (z % 146097).toNat
  let p := yearLoop 400 (1 + 400 * c) r
  let q := monthLoop (isLeap p.1) 12 1 p.2
  (p.1, q.1, q.2 + 1)

/-- A calendar date and time, stored as UTC (`Clock(chrono::NaiveDateTime)`),
modelled as nanoseconds since 0001-01-01T00:00:00 UTC. -/
structure Clock where
  nanos : ℤ
  deriving DecidableEq

/-- `Clock::utc`: builds the instant through chrono's `Utc.ymd(..).and_hms(..)`.
Those constructors panic on out-of-range fields (`Except.error ()`); on
valid fields the code wraps the result in `Some` — it never returns
`None`. -/
def Clock.utc (year : ℤ) (month day hour min sec : ℕ) : Except Unit (Option Clock) :=
  if validDate year month day hour min sec then
    Except.ok (some ⟨utcNanos year month day hour min sec⟩)
  else
    Except.error ()

/-- `Clock::local`: like `Clock::utc` but the fields are host-local wall
clock time, converted to UTC by subtracting the host's UTC offset
(`offsetSeconds`, seconds east of UTC, modelled as a fixed parameter). -/
def Clock.local (offsetSeconds : ℤ) (year : ℤ) (month day hour min sec : ℕ) :
    Except Unit (Option Clock) :=
  if validDate year month day hour min sec then
    Except.ok (some ⟨utcNanos year month day hour min sec - offsetSeconds * 1000000000⟩)
  else
    Except.error ()

/-- The day number (days since 0001-01-01) of the instant's date part. -/
def Clock.dayz (c : Clock) : ℤ :=
  c.nanos / nsPerDay

/-- Nanoseconds since midnight of the instant's date. -/
def Clock.nsOfDay (c : Clock) : ℤ :=
  c.nanos % nsPerDay

/-- `Clock::year`. -/
def Clock.year (c : Clock) : ℤ :=
  (civilFromDays c.dayz).1

/-- The month ordinal 1..=12 delivered by the calendar service
(`self.0.month()`). -/
def Clock.monthOrdinal (c : Clock) : ℕ :=
  (civilFromDays c.dayz).2.1

/-- `Clock::month`: transmutes the service's month ordinal into `Month`. -/
def Clock.month (c : Clock) : Option Month :=
  transmuteMonth c.monthOrdinal

/-- `Clock::day`. -/
def Clock.day (c : Clock) : ℕ :=
  (civilFromDays c.dayz).2.2

/-- The weekday number counted from Sunday = 0 delivered by the calendar
service (`self.0.weekday().num_days_from_sunday()`); 0001-01-01 is a
Monday. -/
def Clock.weekdayFromSunday (c : Clock) : ℕ :=
  ((c.dayz + 1) % 7).toNat

/-- `Clock::dayofweek`: transmutes the service's weekday number into
`DayOfWeek`. -/
def Clock.dayofweek (c : Clock) : Option DayOfWeek :=
  transmuteDayOfWeek c.weekdayFromSunday

/-- `Clock::hour`. -/
def Clock.hour (c : Clock) : ℕ :=
  (c.nsOfDay / 3600000000000).toNat

/-- `Clock::minute`. -/
def Clock.minute (c : Clock) : ℕ :=
  (c.nsOfDay / 60000000000 % 60).toNat

/-- `Clock::second`. -/
def Clock.second (c : Clock) : ℕ :=
  (c.nsOfDay / 1000000000 % 60).toNat

/-- `Clock::nanosecond`. -/
def Clock.nanosecond (c : Clock) : ℕ :=
  (c.nsOfDay % 1000000000).toNat

/-- The arithmetic core of `Clock::since`, applied to the signed
whole-second difference `S` and nanosecond remainder `R` delivered by the
chrono subtraction.  Rust `/` and `%` on `i128` truncate toward zero
(`Int.tdiv` / `Int.tmod`) and panic on a zero divisor (`none`); the
`as i64` casts and the final `i64` addition wrap (`wrap64`). -/
def sinceParts (S R : ℤ) (frac : Duration) : Option ℤ :=
  if frac.denominator = 0 then none
  else
    let fracDen : ℤ := frac.denominator
    let fracNum : ℤ := frac.seconds
    let seconds := S * fracNum
    let nanos := R * fracNum
    let secondsRemaining := Int.tmod seconds fracDen
    let nanos2 := nanos + secondsRemaining * 1000000000
    let nanosQ := wrap64 (Int.tdiv nanos2 fracDen)
    let secondsQ := wrap64 (Int.tdiv seconds fracDen)
    some (wrap64 (secondsQ + Int.tdiv nanosQ 1000000000))

/-- `Clock::since`: the difference of the two instants is split by chrono
into truncated whole seconds (`num_seconds`) and a same-signed nanosecond
remainder, then fed to the scaling arithmetic. -/
def Clock.since (self other : Clock) (frac : Duration) : Option ℤ :=
  let d := self.nanos - other.nanos
  sinceParts (Int.tdiv d 1000000000) (Int.tmod d 1000000000) frac

/-- Exact mathematical elapsed-units value that `Clock::since` stages: the
single combined truncated division of the full duration, as described in
the spec. -/
def elapsedCombined (S R : ℤ) (frac : Duration) : ℤ :=
  Int.tdiv ((S * 1000000000 + R) * frac.seconds) ((frac.denominator : ℤ) * 1000000000)

/-- Absence of `i64` wrap in the `Clock::since` arithmetic for inputs
`S`, `R` and unit `u`: the two quotients and the final sum are
representable in `i64`. -/
abbrev sinceNoWrapParts (S R : ℤ) (u : Duration) : Prop :=
  |Int.tdiv (S * u.seconds) (u.denominator : ℤ)| < 9223372036854775808 ∧
  |Int.tdiv (R * u.seconds + Int.tmod (S * u.seconds) (u.denominator : ℤ) * 1000000000)
      (u.denominator : ℤ)| < 9223372036854775808 ∧
  |Int.tdiv (S * u.seconds) (u.denominator : ℤ) +
      Int.tdiv (Int.tdiv (R * u.seconds + Int.tmod (S * u.seconds) (u.denominator : ℤ) *
        1000000000) (u.denominator : ℤ)) 1000000000| < 9223372036854775808

/-- Absence of `i64` wrap in `Clock::since` for the pair of instants
`a`, `b` and unit `u`. -/
abbrev sinceNoWrap (a b : Clock) (u : Duration) : Prop :=
  sinceNoWrapParts (Int.tdiv (a.nanos - b.nanos) 1000000000)
    (Int.tmod (a.nanos - b.nanos) 1000000000) u


/-- Total days of the `t` consecutive years starting at year `base`. -/
def yearsSpan (base : ℤ) : ℕ → ℕ
  | 0 => 0
  | t + 1 => daysInYear base + yearsSpan (base + 1) t

/-- Total days of the `t` consecutive months starting at month `m`. -/
def monthSpan (leap : Bool) (m : ℕ) : ℕ → ℕ
  | 0 => 0
  | t + 1 => monthLen leap m + monthSpan leap (m + 1) t

instance {ε α : Type} [DecidableEq ε] [DecidableEq α] : DecidableEq (Except ε α) :=
  fun a b =>
  match a, b with
  | .ok x, .ok y =>
    if h : x = y then isTrue (by rw [h]) else isFalse (fun hc => h (Except.ok.inj hc))
  | .error x, .error y =>
    if h : x = y then isTrue (by rw [h]) else isFalse (fun hc => h (Except.error.inj hc))
  | .ok _, .error _ => isFalse (fun hc => Except.noConfusion hc)
  | .error _, .ok _ => isFalse (fun hc => Except.noConfusion hc)

/-! ## Arithmetic helper lemmas -/

theorem wrap64_eq_self {x : ℤ} (h1 : -9223372036854775808 ≤ x)
    (h2 : x < 9223372036854775808) : wrap64 x = x := by
  unfold wrap64; omega

theorem wrap64_bounds (x : ℤ) :
    -9223372036854775808 ≤ wrap64 x ∧ wrap64 x < 9223372036854775808 := by
  unfold wrap64; omega

theorem wrap32_eq_self {x : ℤ} (h1 : -2147483648 ≤ x) (h2 : x < 2147483648) :
    wrap32 x = x := by
  unfold wrap32; omega

theorem tmod_neg_dividend (a b : ℤ) : Int.tmod (-a) b = -Int.tmod a b := by
  have h1 := Int.tdiv_add_tmod a b
  have h2 := Int.tdiv_add_tmod (-a) b
  rw [Int.neg_tdiv, mul_neg] at h2
  linarith

theorem tdiv_nonpos_of_nonpos {a b : ℤ} (ha : a ≤ 0) (hb : 0 ≤ b) :
    Int.tdiv a b ≤ 0 := by
  have h : Int.tdiv (-a) b = -Int.tdiv a b := Int.neg_tdiv a b
  have h2 : 0 ≤ Int.tdiv (-a) b := Int.tdiv_nonneg (by omega) hb
  omega

theorem tmod_nonpos_of_nonpos {a b : ℤ} (ha : a ≤ 0) :
    Int.tmod a b ≤ 0 := by
  have h : Int.tmod (-a) b = -Int.tmod a b := tmod_neg_dividend a b
  have h2 : 0 ≤ Int.tmod (-a) b := Int.tmod_nonneg b (by omega)
  omega

theorem ediv_ediv_of_pos (a : ℤ) {b c : ℤ} (hb : 0 < b) (hc : 0 < c) :
    a / b / c = a / (b * c) := by
  have e1 := Int.ediv_add_emod a b
  have e2 := Int.ediv_add_emod (a / b) c
  have h0 : 0 ≤ a % b := Int.emod_nonneg a (by omega)
  have h1 : a % b < b := Int.emod_lt_of_pos a hb
  have h2 : 0 ≤ (a / b) % c := Int.emod_nonneg (a / b) (by omega)
  have h3 : (a / b) % c < c := Int.emod_lt_of_pos (a / b) hc
  have key := (Int.ediv_emod_unique (b := b * c) (a := a)
      (q := a / b / c) (r := a % b + b * ((a / b) % c)) (mul_pos hb hc)).mpr
  refine ((key ⟨?_, ?_, ?_⟩).1).symm
  · linear_combination e1 + b * e2
  · have : 0 ≤ b * ((a / b) % c) := mul_nonneg hb.le h2
    omega
  · have hmul : b * ((a / b) % c) ≤ b * (c - 1) :=
      mul_le_mul_of_nonneg_left (by omega) hb.le
    nlinarith

theorem tdiv_tdiv_of_nonneg {a b c : ℤ} (ha : 0 ≤ a) (hb : 0 < b) (hc : 0 < c) :
    Int.tdiv (Int.tdiv a b) c = Int.tdiv a (b * c) := by
  rw [Int.tdiv_eq_ediv ha hb.le, Int.tdiv_eq_ediv (Int.ediv_nonneg ha hb.le) hc.le,
    Int.tdiv_eq_ediv ha (mul_pos hb hc).le, ediv_ediv_of_pos a hb hc]

theorem tdiv_tdiv_of_pos (a : ℤ) {b c : ℤ} (hb : 0 < b) (hc : 0 < c) :
    Int.tdiv (Int.tdiv a b) c = Int.tdiv a (b * c) := by
  rcases le_or_lt 0 a with ha | ha
  · exact tdiv_tdiv_of_nonneg ha hb hc
  · have h := tdiv_tdiv_of_nonneg (a := -a) (by omega) hb hc
    rw [Int.neg_tdiv, Int.neg_tdiv, Int.neg_tdiv] at h
    omega

theorem add_mul_tdiv_same_sign {q n d : ℤ} (hd : 0 < d)
    (hsign : (0 ≤ q ∧ 0 ≤ n) ∨ (q ≤ 0 ∧ n ≤ 0)) :
    Int.tdiv (q * d + n) d = q + Int.tdiv n d := by
  rcases hsign with ⟨hq, hn⟩ | ⟨hq, hn⟩
  · have htot : 0 ≤ q * d + n := by positivity
    rw [Int.tdiv_eq_ediv htot hd.le, Int.tdiv_eq_ediv hn hd.le]
    have h := Int.add_mul_ediv_left (b := d) n q (by omega)
    rw [mul_comm d q] at h
    rw [show q * d + n = n + q * d by ring, h]
    ring
  · have htot : 0 ≤ (-q) * d + (-n) := by
      have : 0 ≤ (-q) * d := mul_nonneg (by omega) hd.le
      omega
    have h : Int.tdiv ((-q) * d + (-n)) d = -q + Int.tdiv (-n) d := by
      rw [Int.tdiv_eq_ediv htot hd.le, Int.tdiv_eq_ediv (by omega : (0:ℤ) ≤ -n) hd.le]
      have h2 := Int.add_mul_ediv_left (b := d) (-n) (-q) (by omega)
      rw [mul_comm d (-q)] at h2
      rw [show (-q) * d + (-n) = -n + (-q) * d by ring, h2]
      ring
    rw [show (-q) * d + (-n) = -(q * d + n) by ring, Int.neg_tdiv, Int.neg_tdiv] at h
    omega

theorem stagedQ_eq_combined_nonneg {a b d : ℤ} (hd : 0 < d) (hs : 0 ≤ a)
    (hn : 0 ≤ b) :
    Int.tdiv a d + Int.tdiv (Int.tdiv (b + Int.tmod a d * 1000000000) d) 1000000000
      = Int.tdiv (a * 1000000000 + b) (d * 1000000000) := by
  have hdecomp : d * Int.tdiv a d + Int.tmod a d = a := Int.tdiv_add_tmod a d
  have hq : 0 ≤ Int.tdiv a d := Int.tdiv_nonneg hs hd.le
  have hsr : 0 ≤ Int.tmod a d := Int.tmod_nonneg d hs
  have hn3 : 0 ≤ b + Int.tmod a d * 1000000000 := by positivity
  have hsplit : a * 1000000000 + b
      = Int.tdiv a d * (d * 1000000000) + (b + Int.tmod a d * 1000000000) := by
    linear_combination 1000000000 * hdecomp.symm
  rw [hsplit, add_mul_tdiv_same_sign (mul_pos hd (by omega)) (Or.inl ⟨hq, hn3⟩),
    tdiv_tdiv_of_pos _ hd (by omega : (0:ℤ) < 1000000000)]

theorem stagedQ_eq_combined {a b d : ℤ} (hd : 0 < d)
    (hsign : (0 ≤ a ∧ 0 ≤ b) ∨ (a ≤ 0 ∧ b ≤ 0)) :
    Int.tdiv a d + Int.tdiv (Int.tdiv (b + Int.tmod a d * 1000000000) d) 1000000000
      = Int.tdiv (a * 1000000000 + b) (d * 1000000000) := by
  rcases hsign with ⟨hs, hn⟩ | ⟨hs, hn⟩
  · exact stagedQ_eq_combined_nonneg hd hs hn
  · have h := stagedQ_eq_combined_nonneg (a := -a) (b := -b) hd (by omega) (by omega)
    rw [tmod_neg_dividend,
      show -b + -Int.tmod a d * 1000000000 = -(b + Int.tmod a d * 1000000000) by ring,
      show (-a) * 1000000000 + -b = -(a * 1000000000 + b) by ring,
      Int.neg_tdiv, Int.neg_tdiv, Int.neg_tdiv, Int.neg_tdiv] at h
    omega

/-! ## Calendar decomposition lemmas -/

theorem daysInYear_int (y : ℤ) :
    (daysInYear y : ℤ) = 365 + (if y % 4 = 0 then 1 else 0)
      - (if y % 100 = 0 then 1 else 0) + (if y % 400 = 0 then 1 else 0) := by
  by_cases h4 : y % 4 = 0 <;> by_cases h100 : y % 100 = 0 <;>
    by_cases h400 : y % 400 = 0 <;>
    simp [daysInYear, isLeap, h4, h100, h400] <;> omega

theorem daysBeforeYear_succ (y : ℤ) :
    daysBeforeYear (y + 1) = daysBeforeYear y + daysInYear y := by
  have hdy := daysInYear_int y
  unfold daysBeforeYear
  rw [hdy]
  split_ifs <;> omega

theorem daysBeforeYear_mono {y z : ℤ} (h : y ≤ z) :
    daysBeforeYear y ≤ daysBeforeYear z := by
  unfold daysBeforeYear
  omega

theorem daysBeforeYear_cycle (c : ℤ) : daysBeforeYear (1 + 400 * c) = 146097 * c := by
  unfold daysBeforeYear
  rw [show (1 + 400 * c - 1 : ℤ) = 400 * c by ring]
  rw [show (400 * c : ℤ) = 4 * (100 * c) by ring, Int.mul_ediv_cancel_left _ (by omega)]
  rw [show (4 * (100 * c) : ℤ) = 100 * (4 * c) by ring, Int.mul_ediv_cancel_left _ (by omega)]
  rw [show (100 * (4 * c) : ℤ) = 400 * c by ring, Int.mul_ediv_cancel_left _ (by omega)]
  ring

theorem yearsSpan_eq (t : ℕ) : ∀ base : ℤ,
    (yearsSpan base t : ℤ) = daysBeforeYear (base + t) - daysBeforeYear base := by
  induction t with
  | zero => intro base; simp [yearsSpan]
  | succ t ih =>
    intro base
    have h1 := daysBeforeYear_succ base
    have h2 := ih (base + 1)
    have h3 : base + ((t : ℤ) + 1) = (base + 1) + (t : ℤ) := by ring
    simp only [yearsSpan]
    push_cast
    rw [h3]
    omega

theorem yearLoop_correct : ∀ (t fuel : ℕ) (base : ℤ) (doy : ℕ), t < fuel →
    doy < daysInYear (base + t) →
    yearLoop fuel base (yearsSpan base t + doy) = (base + t, doy) := by
  intro t
  induction t with
  | zero =>
    intro fuel base doy hf hd
    match fuel, hf with
    | f + 1, _ =>
      simp only [yearsSpan, yearLoop, Nat.zero_add]
      rw [if_pos]
      · simp
      · simpa using hd
  | succ t ih =>
    intro fuel base doy hf hd
    match fuel, hf with
    | f + 1, hf =>
      have hspan : yearsSpan base (t + 1) = daysInYear base + yearsSpan (base + 1) t := rfl
      simp only [yearLoop]
      rw [if_neg (by omega : ¬ (yearsSpan base (t + 1) + doy < daysInYear base))]
      rw [show yearsSpan base (t + 1) + doy - daysInYear base
          = yearsSpan (base + 1) t + doy by omega]
      have hd2 : doy < daysInYear ((base + 1) + t) := by
        rwa [show ((base + 1) + (t : ℤ)) = base + ((t : ℤ) + 1) by ring, show ((t : ℤ) + 1) = ((t + 1 : ℕ) : ℤ) by push_cast; ring]
      rw [ih f (base + 1) doy (by omega) hd2]
      rw [show ((base + 1) + (t : ℤ)) = base + ((t + 1 : ℕ) : ℤ) by push_cast; ring]

theorem monthLoop_correct_aux (leap : Bool) : ∀ (t fuel m dd : ℕ), t < fuel →
    dd < monthLen leap (m + t) →
    monthLoop leap fuel m (monthSpan leap m t + dd) = (m + t, dd) := by
  intro t
  induction t with
  | zero =>
    intro fuel m dd hf hd
    match fuel, hf with
    | f + 1, _ =>
      simp only [monthSpan, monthLoop, Nat.zero_add]
      rw [if_pos]
      · simp
      · simpa using hd
  | succ t ih =>
    intro fuel m dd hf hd
    match fuel, hf with
    | f + 1, hf =>
      have hspan : monthSpan leap m (t + 1) = monthLen leap m + monthSpan leap (m + 1) t := rfl
      simp only [monthLoop]
      rw [if_neg (by omega : ¬ (monthSpan leap m (t + 1) + dd < monthLen leap m))]
      rw [show monthSpan leap m (t + 1) + dd - monthLen leap m
          = monthSpan leap (m + 1) t + dd by omega]
      have hd2 : dd < monthLen leap ((m + 1) + t) := by
        rwa [show (m + 1) + t = m + (t + 1) by omega]
      rw [ih f (m + 1) dd (by omega) hd2]
      rw [show (m + 1) + t = m + (t + 1) by omega]

theorem cumMonthDays_eq_monthSpan (leap : Bool) {m : ℕ} (hm1 : 1 ≤ m) (hm2 : m ≤ 12) :
    cumMonthDays leap m = monthSpan leap 1 (m - 1) := by
  interval_cases m <;> cases leap <;> rfl

theorem monthLoop_correct (leap : Bool) {m dd : ℕ} (hm1 : 1 ≤ m) (hm2 : m ≤ 12)
    (hdd : dd < monthLen leap m) :
    monthLoop leap 12 1 (cumMonthDays leap m + dd) = (m, dd) := by
  rw [cumMonthDays_eq_monthSpan leap hm1 hm2]
  have h := monthLoop_correct_aux leap (m - 1) 12 1 dd (by omega)
    (by rwa [show 1 + (m - 1) = m by omega])
  rwa [show 1 + (m - 1) = m by omega] at h

theorem doy_lt_daysInYear (leap : Bool) {m d : ℕ} (hm1 : 1 ≤ m) (hm2 : m ≤ 12)
    (hd1 : 1 ≤ d) (hd2 : d ≤ monthLen leap m) :
    cumMonthDays leap m + (d - 1) < if leap then 366 else 365 := by
  interval_cases m <;> cases leap <;> simp [cumMonthDays, monthLen] at hd2 ⊢ <;> omega

theorem civilFromDays_dayNumber {y : ℤ} {m d : ℕ} (hm1 : 1 ≤ m) (hm2 : m ≤ 12)
    (hd1 : 1 ≤ d) (hd2 : d ≤ monthLen (isLeap y) m) :
    civilFromDays (dayNumberOfDate y m d) = (y, m, d) := by
  have hc := Int.ediv_add_emod (y - 1) 400
  have hc0 : 0 ≤ (y - 1) % 400 := Int.emod_nonneg _ (by omega)
  have hc1 : (y - 1) % 400 < 400 := Int.emod_lt_of_pos _ (by omega)
  have hyt : y = 1 + 400 * ((y - 1) / 400) + (((y - 1) % 400).toNat : ℤ) := by omega
  have htlt : ((y - 1) % 400).toNat < 400 := by omega
  have hdoy_lt : cumMonthDays (isLeap y) m + (d - 1) < daysInYear y := by
    have := doy_lt_daysInYear (isLeap y) hm1 hm2 hd1 hd2
    unfold daysInYear
    split_ifs at this ⊢ <;> omega
  have hz : dayNumberOfDate y m d
      = daysBeforeYear y + ((cumMonthDays (isLeap y) m + (d - 1) : ℕ) : ℤ) := by
    unfold dayNumberOfDate
    push_cast
    omega
  have hspan : (yearsSpan (1 + 400 * ((y - 1) / 400)) (((y - 1) % 400).toNat) : ℤ)
      = daysBeforeYear y - daysBeforeYear (1 + 400 * ((y - 1) / 400)) := by
    rw [yearsSpan_eq]
    rw [show (1 + 400 * ((y - 1) / 400)) + ((((y - 1) % 400).toNat : ℕ) : ℤ) = y by omega]
  have hcyc := daysBeforeYear_cycle ((y - 1) / 400)
  have hcyc1 := daysBeforeYear_cycle ((y - 1) / 400 + 1)
  have hylt : y + 1 ≤ 1 + 400 * ((y - 1) / 400 + 1) := by omega
  have hmono := daysBeforeYear_mono hylt
  have hsucc := daysBeforeYear_succ y
  have hr_lt : yearsSpan (1 + 400 * ((y - 1) / 400)) (((y - 1) % 400).toNat)
      + (cumMonthDays (isLeap y) m + (d - 1)) < 146097 := by
    have h1 : (yearsSpan (1 + 400 * ((y - 1) / 400)) (((y - 1) % 400).toNat) : ℤ)
        + ((cumMonthDays (isLeap y) m + (d - 1) : ℕ) : ℤ)
        < daysBeforeYear (y + 1) - daysBeforeYear (1 + 400 * ((y - 1) / 400)) := by
      push_cast
      omega
    omega
  have hz2 : dayNumberOfDate y m d = 146097 * ((y - 1) / 400)
      + ((yearsSpan (1 + 400 * ((y - 1) / 400)) (((y - 1) % 400).toNat)
          + (cumMonthDays (isLeap y) m + (d - 1)) : ℕ) : ℤ) := by
    push_cast
    omega
  have hediv : dayNumberOfDate y m d / 146097 = (y - 1) / 400 := by omega
  have hemod : dayNumberOfDate y m d % 146097
      = ((yearsSpan (1 + 400 * ((y - 1) / 400)) (((y - 1) % 400).toNat)
          + (cumMonthDays (isLeap y) m + (d - 1)) : ℕ) : ℤ) := by omega
  have hdoy_lt2 : cumMonthDays (isLeap y) m + (d - 1)
      < daysInYear ((1 + 400 * ((y - 1) / 400)) + (((y - 1) % 400).toNat : ℤ)) := by
    rw [show (1 + 400 * ((y - 1) / 400)) + ((((y - 1) % 400).toNat : ℕ) : ℤ) = y by omega]
    exact hdoy_lt
  have hloop := yearLoop_correct (((y - 1) % 400).toNat) 400 (1 + 400 * ((y - 1) / 400))
    (cumMonthDays (isLeap y) m + (d - 1)) htlt hdoy_lt2
  simp only [civilFromDays]
  rw [hediv, hemod, Int.toNat_natCast, hloop]
  rw [show (1 + 400 * ((y - 1) / 400)) + ((((y - 1) % 400).toNat : ℕ) : ℤ) = y by omega]
  rw [monthLoop_correct (isLeap y) hm1 hm2 (by omega : d - 1 < monthLen (isLeap y) m)]
  simp only [Prod.mk.injEq]
  exact ⟨trivial, trivial, by omega⟩

theorem utcNanos_dayz (y : ℤ) (mo d : ℕ) {h mi s : ℕ} (hh : h ≤ 23) (hmi : mi ≤ 59)
    (hs : s ≤ 59) :
    (⟨utcNanos y mo d h mi s⟩ : Clock).dayz = dayNumberOfDate y mo d := by
  unfold Clock.dayz utcNanos nsPerDay
  push_cast
  omega

theorem utcNanos_nsOfDay (y : ℤ) (mo d : ℕ) {h mi s : ℕ} (hh : h ≤ 23) (hmi : mi ≤ 59)
    (hs : s ≤ 59) :
    (⟨utcNanos y mo d h mi s⟩ : Clock).nsOfDay
      = ((h * 3600 + mi * 60 + s : ℕ) : ℤ) * 1000000000 := by
  unfold Clock.nsOfDay utcNanos nsPerDay
  push_cast
  omega

theorem utc_accessor_fields {y : ℤ} {mo d h mi s : ℕ}
    (hv : validDate y mo d h mi s) :
    (⟨utcNanos y mo d h mi s⟩ : Clock).year = y ∧
    (⟨utcNanos y mo d h mi s⟩ : Clock).monthOrdinal = mo ∧
    (⟨utcNanos y mo d h mi s⟩ : Clock).day = d ∧
    (⟨utcNanos y mo d h mi s⟩ : Clock).hour = h ∧
    (⟨utcNanos y mo d h mi s⟩ : Clock).minute = mi ∧
    (⟨utcNanos y mo d h mi s⟩ : Clock).second = s := by
  obtain ⟨hy1, hy2, hm1, hm2, hd1, hd2, hh, hmi, hs⟩ := hv
  unfold daysInMonth at hd2
  have hdayz := utcNanos_dayz y mo d hh hmi hs
  have hns := utcNanos_nsOfDay y mo d hh hmi hs
  have hciv := civilFromDays_dayNumber (y := y) hm1 hm2 hd1 hd2
  refine ⟨?_, ?_, ?_, ?_, ?_, ?_⟩
  · unfold Clock.year
    rw [hdayz, hciv]
  · unfold Clock.monthOrdinal
    rw [hdayz, hciv]
  · unfold Clock.day
    rw [hdayz, hciv]
  · unfold Clock.hour
    rw [hns]
    push_cast
    omega
  · unfold Clock.minute
    rw [hns]
    push_cast
    omega
  · unfold Clock.second
    rw [hns]
    push_cast
    omega

theorem transmuteMonth_toNat {n : ℕ} (h1 : 1 ≤ n) (h2 : n ≤ 12) :
    (transmuteMonth n).map Month.toNat = some n := by
  interval_cases n <;> rfl

theorem transmuteMonth_out_of_range {n : ℕ} (h : 13 ≤ n) : transmuteMonth n = none := by
  obtain ⟨k, rfl⟩ : ∃ k, n = k + 13 := ⟨n - 13, by omega⟩
  rfl

theorem transmuteDayOfWeek_toNat {n : ℕ} (h : n ≤ 6) :
    (transmuteDayOfWeek n).map DayOfWeek.toNat = some n := by
  interval_cases n <;> rfl

theorem transmuteDayOfWeek_out_of_range {n : ℕ} (h : 7 ≤ n) :
    transmuteDayOfWeek n = none := by
  obtain ⟨k, rfl⟩ : ∃ k, n = k + 7 := ⟨n - 7, by omega⟩
  rfl

/-! ## Lemmas about `Clock::since` -/

theorem sinceParts_eq_combined {S R : ℤ} {u : Duration} (hden : u.denominator ≠ 0)
    (hsign : (0 ≤ S ∧ 0 ≤ R) ∨ (S ≤ 0 ∧ R ≤ 0))
    (hw : sinceNoWrapParts S R u) :
    sinceParts S R u = some (elapsedCombined S R u) := by
  have hd : (0 : ℤ) < (u.denominator : ℤ) := by
    exact_mod_cast Nat.pos_of_ne_zero hden
  obtain ⟨h1, h2, h3⟩ := hw
  have hb1 := abs_lt.mp h1
  have hb2 := abs_lt.mp h2
  have hb3 := abs_lt.mp h3
  simp only [sinceParts, elapsedCombined, hden, if_false]
  rw [wrap64_eq_self (by omega) hb2.2, wrap64_eq_self (by omega) hb1.2,
    wrap64_eq_self (by omega) hb3.2]
  have hs2 : (0 ≤ S * u.seconds ∧ 0 ≤ R * u.seconds)
      ∨ (S * u.seconds ≤ 0 ∧ R * u.seconds ≤ 0) := by
    rcases hsign with ⟨hS, hR⟩ | ⟨hS, hR⟩ <;> rcases le_or_lt 0 u.seconds with hf | hf
    · exact Or.inl ⟨mul_nonneg hS hf, mul_nonneg hR hf⟩
    · exact Or.inr ⟨by nlinarith, by nlinarith⟩
    · exact Or.inr ⟨by nlinarith, by nlinarith⟩
    · exact Or.inl ⟨by nlinarith, by nlinarith⟩
  have key := stagedQ_eq_combined (a := S * u.seconds) (b := R * u.seconds) hd hs2
  rw [show (S * 1000000000 + R) * u.seconds
      = S * u.seconds * 1000000000 + R * u.seconds by ring]
  rw [← key]

theorem sinceParts_val {S R : ℤ} {u : Duration} (hden : u.denominator ≠ 0)
    (hw : sinceNoWrapParts S R u) :
    sinceParts S R u = some (Int.tdiv (S * u.seconds) (u.denominator : ℤ)
      + Int.tdiv (Int.tdiv (R * u.seconds + Int.tmod (S * u.seconds) (u.denominator : ℤ)
          * 1000000000) (u.denominator : ℤ)) 1000000000) := by
  obtain ⟨h1, h2, h3⟩ := hw
  have hb1 := abs_lt.mp h1
  have hb2 := abs_lt.mp h2
  have hb3 := abs_lt.mp h3
  simp only [sinceParts, hden, if_false]
  rw [wrap64_eq_self (by omega) hb2.2, wrap64_eq_self (by omega) hb1.2,
    wrap64_eq_self (by omega) hb3.2]

theorem neg_mul_seconds (S : ℤ) (u : Duration) : (-S) * u.seconds = -(S * u.seconds) := by
  ring

theorem sinceNoWrapParts_neg {S R : ℤ} {u : Duration} (hw : sinceNoWrapParts S R u) :
    sinceNoWrapParts (-S) (-R) u := by
  obtain ⟨h1, h2, h3⟩ := hw
  have e2 : (-R) * u.seconds + Int.tmod ((-S) * u.seconds) (u.denominator : ℤ) * 1000000000
      = -(R * u.seconds + Int.tmod (S * u.seconds) (u.denominator : ℤ) * 1000000000) := by
    have eS : (-S) * u.seconds = -(S * u.seconds) := by ring
    rw [eS, tmod_neg_dividend]
    ring
  refine ⟨?_, ?_, ?_⟩
  · rw [neg_mul_seconds, Int.neg_tdiv, abs_neg]
    exact h1
  · rw [e2, Int.neg_tdiv, abs_neg]
    exact h2
  · rw [e2, neg_mul_seconds, Int.neg_tdiv, Int.neg_tdiv, Int.neg_tdiv,
      show -Int.tdiv (S * u.seconds) (u.denominator : ℤ)
          + -Int.tdiv (Int.tdiv (R * u.seconds + Int.tmod (S * u.seconds)
            (u.denominator : ℤ) * 1000000000) (u.denominator : ℤ)) 1000000000
        = -(Int.tdiv (S * u.seconds) (u.denominator : ℤ)
          + Int.tdiv (Int.tdiv (R * u.seconds + Int.tmod (S * u.seconds)
            (u.denominator : ℤ) * 1000000000) (u.denominator : ℤ)) 1000000000) by ring,
      abs_neg]
    exact h3

theorem sinceParts_negate {S R : ℤ} {u : Duration} (hden : u.denominator ≠ 0)
    (hw : sinceNoWrapParts S R u) {v : ℤ} (hv : sinceParts S R u = some v) :
    sinceParts (-S) (-R) u = some (-v) := by
  have e2 : (-R) * u.seconds + Int.tmod ((-S) * u.seconds) (u.denominator : ℤ) * 1000000000
      = -(R * u.seconds + Int.tmod (S * u.seconds) (u.denominator : ℤ) * 1000000000) := by
    have eS : (-S) * u.seconds = -(S * u.seconds) := by ring
    rw [eS, tmod_neg_dividend]
    ring
  rw [sinceParts_val hden hw] at hv
  rw [sinceParts_val hden (sinceNoWrapParts_neg hw), e2, neg_mul_seconds,
    Int.neg_tdiv, Int.neg_tdiv, Int.neg_tdiv]
  injection hv with hv
  rw [← hv]
  congr 1
  ring

theorem since_self (a : Clock) {u : Duration} (hden : u.denominator ≠ 0) :
    Clock.since a a u = some 0 := by
  have h0 : wrap64 0 = 0 := by
    unfold wrap64
    omega
  simp [Clock.since, sinceParts, hden, Int.zero_tdiv, Int.zero_tmod, h0]

theorem since_def (a b : Clock) (u : Duration) :
    Clock.since a b u = sinceParts (Int.tdiv (a.nanos - b.nanos) 1000000000)
      (Int.tmod (a.nanos - b.nanos) 1000000000) u :=
  rfl

theorem since_den_zero (a b : Clock) {u : Duration} (hden : u.denominator = 0) :
    Clock.since a b u = none := by
  simp [Clock.since, sinceParts, hden]

theorem since_succeeds {a b : Clock} {u : Duration} (hden : u.denominator ≠ 0) :
    ∃ v, Clock.since a b u = some v
      ∧ -9223372036854775808 ≤ v ∧ v < 9223372036854775808 := by
  simp only [Clock.since, sinceParts, hden, if_false]
  exact ⟨_, rfl, (wrap64_bounds _).1, (wrap64_bounds _).2⟩

theorem sinceParts_sign_nonneg {S R : ℤ} {u : Duration} (hden : u.denominator ≠ 0)
    (hS : 0 ≤ S) (hR : 0 ≤ R) (hf : 0 ≤ u.seconds) (hw : sinceNoWrapParts S R u) :
    ∃ v, sinceParts S R u = some v ∧ 0 ≤ v := by
  refine ⟨_, sinceParts_eq_combined hden (Or.inl ⟨hS, hR⟩) hw, ?_⟩
  unfold elapsedCombined
  apply Int.tdiv_nonneg
  · have h : 0 ≤ S * 1000000000 + R := by positivity
    exact mul_nonneg h hf
  · positivity

theorem sinceParts_sign_nonpos {S R : ℤ} {u : Duration} (hden : u.denominator ≠ 0)
    (hS : S ≤ 0) (hR : R ≤ 0) (hf : 0 ≤ u.seconds) (hw : sinceNoWrapParts S R u) :
    ∃ v, sinceParts S R u = some v ∧ v ≤ 0 := by
  refine ⟨_, sinceParts_eq_combined hden (Or.inr ⟨hS, hR⟩) hw, ?_⟩
  unfold elapsedCombined
  apply tdiv_nonpos_of_nonpos
  · have h : S * 1000000000 + R ≤ 0 := by nlinarith
    nlinarith
  · positivity

/-! ## Claim theorems -/

/-- Claim C1 (code evaluated at the claimed scenario): for
`a = fromUtc(2024,1,1,0,0,0)` and `b = fromUtc(2024,1,1,0,0,1)`,
`since(b, a, SECOND)` is `1` as claimed, but `since(b, a, MILLISECOND)`
returns `0`, not the claimed `1000`: the code multiplies the elapsed time
by the fraction `1/1000` instead of counting milliseconds. -/
theorem claim1_since_scenario_eval :
    Clock.utc 2024 1 1 0 0 0 = Except.ok (some ⟨utcNanos 2024 1 1 0 0 0⟩) ∧
    Clock.utc 2024 1 1 0 0 1 = Except.ok (some ⟨utcNanos 2024 1 1 0 0 1⟩) ∧
    Clock.since ⟨utcNanos 2024 1 1 0 0 1⟩ ⟨utcNanos 2024 1 1 0 0 0⟩ SECOND = some 1 ∧
    Clock.since ⟨utcNanos 2024 1 1 0 0 1⟩ ⟨utcNanos 2024 1 1 0 0 0⟩ MILLISECOND
      = some 0 := by
  exact ⟨by decide, by decide, by decide, by decide⟩

/-- Claim C2 (code evaluated at out-of-range fields): `Clock::utc` and
`Clock::local` never return `None` — for month 13, day 32 or February 30
they panic inside chrono's `ymd`/`and_hms` (modelled `Except.error ()`)
instead of returning the absent result the claim requires. -/
theorem claim2_invalid_fields_panic :
    Clock.utc 2024 13 1 0 0 0 = Except.error () ∧
    Clock.utc 2024 1 32 0 0 0 = Except.error () ∧
    Clock.utc 2024 2 30 0 0 0 = Except.error () ∧
    (∀ off : ℤ, Clock.local off 2024 13 1 0 0 0 = Except.error ()) ∧
    (∀ off : ℤ, Clock.local off 2024 1 32 0 0 0 = Except.error ()) := by
  refine ⟨by decide, by decide, by decide, fun off => ?_, fun off => ?_⟩ <;>
    · unfold Clock.local
      rw [if_neg (by decide)]

/-- Claim C3 counterexample: a zero-denominator `Duration` is not rejected
at the point of use — `Duration * i32` happily computes a present result
carrying denominator 0, and `Clock::since` with a zero-denominator unit
hits the `i128` remainder/division by zero, a divide fault (Rust panic,
modelled `none`), not a defined `InvalidDurationDenominator` error. -/
theorem claim3_counterexample :
    Duration.mul (Duration.new 1 0) 5 = Duration.new 5 0 ∧
    Clock.since ⟨0⟩ ⟨1000000000⟩ (Duration.new 1 0) = none := by
  exact ⟨by decide, by decide⟩

/-- Claim C3 (amended): the code performs no denominator check anywhere:
`Duration` arithmetic flows a zero denominator through unchanged,
`Clock::since` with denominator 0 divide-faults (panics), and with any
nonzero denominator it always computes a present value. -/
theorem claim3_zero_denominator_behavior :
    (∀ (d : Duration) (k : ℤ), (Duration.mul d k).denominator = d.denominator) ∧
    (∀ (a b : Clock) (u : Duration), u.denominator = 0 → Clock.since a b u = none) ∧
    (∀ (a b : Clock) (u : Duration), u.denominator ≠ 0 →
      ∃ v, Clock.since a b u = some v) := by
  refine ⟨fun d k => rfl, fun a b u h => since_den_zero a b h, fun a b u h => ?_⟩
  obtain ⟨v, hv, _⟩ := since_succeeds (a := a) (b := b) h
  exact ⟨v, hv⟩

theorem claim3_witness :
    (Duration.mul (Duration.new 3 7) 2).denominator = 7 ∧
    Clock.since ⟨0⟩ ⟨5000000000⟩ (Duration.new 1 0) = none ∧
    ∃ v, Clock.since ⟨0⟩ ⟨5000000000⟩ SECOND = some v :=
  ⟨claim3_zero_denominator_behavior.1 (Duration.new 3 7) 2,
   claim3_zero_denominator_behavior.2.1 ⟨0⟩ ⟨5000000000⟩ (Duration.new 1 0) rfl,
   claim3_zero_denominator_behavior.2.2 ⟨0⟩ ⟨5000000000⟩ SECOND (by decide)⟩

/-- Claim C4 counterexample: the `month()`/`dayofweek()` accessors use
`unsafe transmute` on the raw ordinal; for an out-of-range ordinal (13 for
a month, 7 for a weekday) the transmute has no defined result (undefined
behavior, modelled `none`) — no defined error value is ever produced, so
the claimed explicit range-checked mapping with a defined error does not
exist in the code. -/
theorem claim4_counterexample :
    transmuteMonth 13 = none ∧ transmuteDayOfWeek 7 = none :=
  ⟨rfl, rfl⟩

/-- Claim C4 (amended): the accessors convert the calendar service's
ordinals by raw-bit reinterpretation: in-range ordinals (1–12, 0–6) map to
the variant with the same discriminant, while any out-of-range ordinal is
undefined behavior (no defined result, no defined error). -/
theorem claim4_transmute_mapping :
    (∀ n, 1 ≤ n → n ≤ 12 → (transmuteMonth n).map Month.toNat = some n) ∧
    (∀ n, 13 ≤ n → transmuteMonth n = none) ∧
    (∀ n, n ≤ 6 → (transmuteDayOfWeek n).map DayOfWeek.toNat = some n) ∧
    (∀ n, 7 ≤ n → transmuteDayOfWeek n = none) ∧
    (∀ c : Clock, c.month = transmuteMonth c.monthOrdinal
      ∧ c.dayofweek = transmuteDayOfWeek c.weekdayFromSunday) :=
  ⟨fun _ h1 h2 => transmuteMonth_toNat h1 h2,
   fun _ h => transmuteMonth_out_of_range h,
   fun _ h => transmuteDayOfWeek_toNat h,
   fun _ h => transmuteDayOfWeek_out_of_range h,
   fun _ => ⟨rfl, rfl⟩⟩

theorem claim4_witness :
    (transmuteMonth 5).map Month.toNat = some 5 ∧
    transmuteMonth 200 = none ∧
    (transmuteDayOfWeek 3).map DayOfWeek.toNat = some 3 ∧
    transmuteDayOfWeek 9 = none :=
  ⟨claim4_transmute_mapping.1 5 (by decide) (by decide),
   claim4_transmute_mapping.2.1 200 (by decide),
   claim4_transmute_mapping.2.2.1 3 (by decide),
   claim4_transmute_mapping.2.2.2.1 9 (by decide)⟩

/-- Claim C5 counterexample: with `b` one second later than `a` and the
valid unit `NANOSECOND`, `since(b, a, NANOSECOND)` is `0`, not positive —
the result is not positive whenever the (multiplicative) scaled span
truncates to zero. -/
theorem claim5_counterexample :
    (utcNanos 2024 1 1 0 0 0 < utcNanos 2024 1 1 0 0 1) ∧
    NANOSECOND.denominator ≠ 0 ∧
    Clock.since ⟨utcNanos 2024 1 1 0 0 1⟩ ⟨utcNanos 2024 1 1 0 0 0⟩ NANOSECOND
      = some 0 := by
  exact ⟨by decide, by decide, by decide⟩

/-- Claim C5 (amended): for a valid unit, `since` is `0` on equal instants;
for a unit with nonnegative numerator, when no `i64` wrap occurs the
result is nonnegative if the reference is not earlier than the baseline
and nonpositive if it is not later (strict positivity fails, as the
counterexample shows). -/
theorem claim5_sign_behavior :
    (∀ (a : Clock) (u : Duration), u.denominator ≠ 0 → Clock.since a a u = some 0) ∧
    (∀ (a b : Clock) (u : Duration), u.denominator ≠ 0 → 0 ≤ u.seconds →
      sinceNoWrap a b u → b.nanos ≤ a.nanos →
      ∃ v, Clock.since a b u = some v ∧ 0 ≤ v) ∧
    (∀ (a b : Clock) (u : Duration), u.denominator ≠ 0 → 0 ≤ u.seconds →
      sinceNoWrap a b u → a.nanos ≤ b.nanos →
      ∃ v, Clock.since a b u = some v ∧ v ≤ 0) := by
  refine ⟨fun a u h => since_self a h, fun a b u hden hf hw hle => ?_,
    fun a b u hden hf hw hle => ?_⟩
  · have hS : 0 ≤ Int.tdiv (a.nanos - b.nanos) 1000000000 :=
      Int.tdiv_nonneg (by omega) (by omega)
    have hR : 0 ≤ Int.tmod (a.nanos - b.nanos) 1000000000 :=
      Int.tmod_nonneg _ (by omega)
    rw [since_def]
    exact sinceParts_sign_nonneg hden hS hR hf hw
  · have hS : Int.tdiv (a.nanos - b.nanos) 1000000000 ≤ 0 :=
      tdiv_nonpos_of_nonpos (by omega) (by omega)
    have hR : Int.tmod (a.nanos - b.nanos) 1000000000 ≤ 0 :=
      tmod_nonpos_of_nonpos (by omega)
    rw [since_def]
    exact sinceParts_sign_nonpos hden hS hR hf hw

theorem claim5_witness :
    Clock.since ⟨2000000000⟩ ⟨2000000000⟩ SECOND = some 0 ∧
    (∃ v, Clock.since ⟨2000000000⟩ ⟨0⟩ SECOND = some v ∧ 0 ≤ v) ∧
    (∃ v, Clock.since ⟨0⟩ ⟨2000000000⟩ SECOND = some v ∧ v ≤ 0) :=
  ⟨claim5_sign_behavior.1 ⟨2000000000⟩ SECOND (by decide),
   claim5_sign_behavior.2.1 ⟨2000000000⟩ ⟨0⟩ SECOND (by decide) (by decide)
     (by decide) (by decide),
   claim5_sign_behavior.2.2 ⟨0⟩ ⟨2000000000⟩ SECOND (by decide) (by decide)
     (by decide) (by decide)⟩

theorem mul_components {d : Duration} {k : ℤ}
    (hs1 : -2147483648 < d.seconds) (hs2 : d.seconds < 2147483648)
    (hk1 : -2147483648 < k) (hk2 : k < 2147483648)
    (hm1 : -2147483648 ≤ d.seconds * k) (hm2 : d.seconds * k < 2147483648) :
    (Duration.mul d k).seconds = d.seconds * k ∧
    (Duration.mul d k).denominator = d.denominator := by
  constructor
  · simp only [Duration.mul]
    split_ifs with h
    · rw [wrap32_eq_self (x := -d.seconds) (by omega) (by omega),
        wrap32_eq_self (x := -k) (by omega) (by omega),
        show -d.seconds * -k = d.seconds * k by ring]
      exact wrap32_eq_self hm1 hm2
    · exact wrap32_eq_self hm1 hm2
  · rfl

theorem div_components {d : Duration} {k : ℤ} (hk0 : k ≠ 0)
    (hs1 : -2147483648 < d.seconds) (hs2 : d.seconds < 2147483648)
    (hk1 : -2147483648 < k) (hk2 : k < 2147483648)
    (hdv : d.denominator * k.natAbs < 4294967296) :
    (Duration.div d k).seconds = (if k < 0 then -d.seconds else d.seconds) ∧
    (Duration.div d k).denominator = d.denominator * k.natAbs := by
  constructor
  · simp only [Duration.div]
    split_ifs with h
    · exact wrap32_eq_self (by omega) (by omega)
    · rfl
  · simp only [Duration.div]
    split_ifs with h
    · rw [wrap32_eq_self (x := -k) (by omega) (by omega),
        show u32OfI32 (-k) = k.natAbs by unfold u32OfI32; omega,
        Nat.mod_eq_of_lt hdv]
    · rw [show u32OfI32 k = k.natAbs by unfold u32OfI32; omega,
        Nat.mod_eq_of_lt hdv]

/-- Claim C6 counterexample: `Duration::new(2^30, 1) * 4` overflows the
`i32` multiply and wraps to seconds 0, so the result represents `0`, not
`value(d) × 4 = 2^32`. -/
theorem claim6_counterexample :
    Duration.mul (Duration.new 1073741824 1) 4 = Duration.new 0 1 ∧
    ¬ (((Duration.new 0 1).seconds : ℚ) / ((Duration.new 0 1).denominator : ℚ)
      = (((Duration.new 1073741824 1).seconds : ℚ)
          / ((Duration.new 1073741824 1).denominator : ℚ)) * 4) := by
  constructor
  · decide
  · norm_num [Duration.new]

/-- Claim C6 (amended): within the `i32`/`u32` ranges and in the absence
of overflow of the scaled seconds (for `mul`) and of the scaled
denominator (for `div`), `d * k` represents `value(d) × k` with the
denominator unchanged, and `d / k` represents `value(d) / k` with the
seconds magnitude unchanged and the denominator multiplied by `|k|`; a
negative `k` moves the sign onto `seconds`.  `new(1,1) / (-2)` yields
seconds `-1`, denominator `2`. -/
theorem claim6_scale_divide :
    ∀ (d : Duration) (k : ℤ), k ≠ 0 →
      -2147483648 < d.seconds → d.seconds < 2147483648 →
      -2147483648 < k → k < 2147483648 →
      d.denominator ≠ 0 →
      -2147483648 ≤ d.seconds * k → d.seconds * k < 2147483648 →
      d.denominator * k.natAbs < 4294967296 →
      (Duration.mul d k).seconds = d.seconds * k ∧
      (Duration.mul d k).denominator = d.denominator ∧
      ((Duration.mul d k).seconds : ℚ) / ((Duration.mul d k).denominator : ℚ)
        = ((d.seconds : ℚ) / (d.denominator : ℚ)) * ((k : ℤ) : ℚ) ∧
      (Duration.div d k).seconds = (if k < 0 then -d.seconds else d.seconds) ∧
      (Duration.div d k).denominator = d.denominator * k.natAbs ∧
      ((Duration.div d k).seconds : ℚ) / ((Duration.div d k).denominator : ℚ)
        = ((d.seconds : ℚ) / (d.denominator : ℚ)) / ((k : ℤ) : ℚ) ∧
      Duration.div (Duration.new 1 1) (-2) = Duration.new (-1) 2 := by
  intro d k hk0 h1 h2 h3 h4 hden hm1 hm2 hdv
  obtain ⟨ms, md⟩ := mul_components h1 h2 h3 h4 hm1 hm2
  obtain ⟨ds, dd⟩ := div_components hk0 h1 h2 h3 h4 hdv
  refine ⟨ms, md, ?_, ds, dd, ?_, by decide⟩
  · rw [ms, md]
    push_cast
    rw [div_mul_eq_mul_div]
  · rw [ds, dd]
    rcases lt_or_gt_of_ne hk0 with hk | hk
    · rw [if_pos hk]
      have hna : ((k.natAbs : ℕ) : ℚ) = -((k : ℤ) : ℚ) := by
        rw [Int.cast_natAbs]
        exact_mod_cast abs_of_neg hk
      rw [Nat.cast_mul, hna, Int.cast_neg,
        show (d.denominator : ℚ) * -((k : ℤ) : ℚ)
          = -((d.denominator : ℚ) * ((k : ℤ) : ℚ)) by ring,
        neg_div_neg_eq, div_div]
    · rw [if_neg (by omega)]
      have hna : ((k.natAbs : ℕ) : ℚ) = ((k : ℤ) : ℚ) := by
        rw [Int.cast_natAbs]
        exact_mod_cast abs_of_pos hk
      rw [Nat.cast_mul, hna, div_div]

theorem claim6_witness :
    (Duration.mul (Duration.new 1 1) (-2)).seconds = (Duration.new 1 1).seconds * (-2) ∧
    (Duration.mul (Duration.new 1 1) (-2)).denominator = (Duration.new 1 1).denominator ∧
    ((Duration.mul (Duration.new 1 1) (-2)).seconds : ℚ)
        / ((Duration.mul (Duration.new 1 1) (-2)).denominator : ℚ)
      = (((Duration.new 1 1).seconds : ℚ) / ((Duration.new 1 1).denominator : ℚ))
        * (((-2 : ℤ) : ℤ) : ℚ) ∧
    (Duration.div (Duration.new 1 1) (-2)).seconds
      = (if (-2 : ℤ) < 0 then -(Duration.new 1 1).seconds else (Duration.new 1 1).seconds) ∧
    (Duration.div (Duration.new 1 1) (-2)).denominator
      = (Duration.new 1 1).denominator * (-2 : ℤ).natAbs ∧
    ((Duration.div (Duration.new 1 1) (-2)).seconds : ℚ)
        / ((Duration.div (Duration.new 1 1) (-2)).denominator : ℚ)
      = (((Duration.new 1 1).seconds : ℚ) / ((Duration.new 1 1).denominator : ℚ))
        / (((-2 : ℤ) : ℤ) : ℚ) ∧
    Duration.div (Duration.new 1 1) (-2) = Duration.new (-1) 2 :=
  claim6_scale_divide (Duration.new 1 1) (-2) (by decide) (by decide) (by decide)
    (by decide) (by decide) (by decide) (by decide) (by decide) (by decide)

/-- Claim C7: for every tuple of fields the calendar service accepts,
the instant built by `Clock::utc` round-trips through the accessors —
`year`/`month`/`day`/`hour`/`minute`/`second` return exactly the input
fields — and `dayofweek` of 2024-01-01 is Monday, matching the proleptic
Gregorian calendar. -/
theorem claim7_roundtrip :
    (∀ (y : ℤ) (mo d h mi s : ℕ) (c : Clock),
      Clock.utc y mo d h mi s = Except.ok (some c) →
      c.year = y ∧ (c.month).map Month.toNat = some mo ∧ c.day = d ∧
      c.hour = h ∧ c.minute = mi ∧ c.second = s) ∧
    (∃ c : Clock, Clock.utc 2024 1 1 0 0 0 = Except.ok (some c)
      ∧ c.dayofweek = some DayOfWeek.Monday) := by
  constructor
  · intro y mo d h mi s c hc
    by_cases hv : validDate y mo d h mi s
    · unfold Clock.utc at hc
      rw [if_pos hv] at hc
      injection hc with hc
      injection hc with hc
      subst hc
      obtain ⟨hy, hmo, hd, hh, hmi2, hs2⟩ := utc_accessor_fields hv
      refine ⟨hy, ?_, hd, hh, hmi2, hs2⟩
      unfold Clock.month
      rw [hmo]
      exact transmuteMonth_toNat hv.2.2.1 hv.2.2.2.1
    · unfold Clock.utc at hc
      rw [if_neg hv] at hc
      exact Except.noConfusion hc
  · exact ⟨⟨utcNanos 2024 1 1 0 0 0⟩, by decide, by decide⟩

theorem claim7_witness :
    Clock.utc 2020 2 29 23 59 58 = Except.ok (some ⟨utcNanos 2020 2 29 23 59 58⟩) ∧
    ((⟨utcNanos 2020 2 29 23 59 58⟩ : Clock).year = 2020 ∧
      ((⟨utcNanos 2020 2 29 23 59 58⟩ : Clock).month).map Month.toNat = some 2 ∧
      (⟨utcNanos 2020 2 29 23 59 58⟩ : Clock).day = 29 ∧
      (⟨utcNanos 2020 2 29 23 59 58⟩ : Clock).hour = 23 ∧
      (⟨utcNanos 2020 2 29 23 59 58⟩ : Clock).minute = 59 ∧
      (⟨utcNanos 2020 2 29 23 59 58⟩ : Clock).second = 58) :=
  ⟨by decide, claim7_roundtrip.1 2020 2 29 23 59 58 ⟨utcNanos 2020 2 29 23 59 58⟩
    (by decide)⟩

/-- Claim C8 counterexample: with `a = fromUtc(1,1,1,0,0,0)` and
`b = fromUtc(273,3,16,12,56,32)` (exactly `2^33` seconds later) and the
unit `2^30/1`, the scaled seconds reach exactly `2^63`; the `as i64` cast
wraps both directions to `i64::MIN`, so `since(b,a,u) = since(a,b,u) =
-2^63` and antisymmetry fails. -/
theorem claim8_counterexample :
    utcNanos 273 3 16 12 56 32 = 8589934592000000000 ∧
    Clock.utc 273 3 16 12 56 32 = Except.ok (some ⟨8589934592000000000⟩) ∧
    Clock.utc 1 1 1 0 0 0 = Except.ok (some ⟨0⟩) ∧
    (Duration.new 1073741824 1).denominator ≠ 0 ∧
    Clock.since ⟨8589934592000000000⟩ ⟨0⟩ (Duration.new 1073741824 1)
      = some (-9223372036854775808) ∧
    Clock.since ⟨0⟩ ⟨8589934592000000000⟩ (Duration.new 1073741824 1)
      = some (-9223372036854775808) ∧
    ¬ ((-9223372036854775808 : ℤ) = -(-9223372036854775808 : ℤ)) := by
  exact ⟨by decide, by decide, by decide, by decide, by decide, by decide, by decide⟩

/-- Claim C8 (amended): antisymmetry of `since` holds for every valid unit
whenever the intermediate quotients and the final sum stay inside the
`i64` range (no wrap): `since(a,b,u) = v` implies `since(b,a,u) = -v`. -/
theorem claim8_antisymmetry :
    ∀ (a b : Clock) (u : Duration), u.denominator ≠ 0 → sinceNoWrap a b u →
      ∀ v : ℤ, Clock.since a b u = some v → Clock.since b a u = some (-v) := by
  intro a b u hden hw v hv
  rw [since_def] at hv
  rw [since_def, show b.nanos - a.nanos = -(a.nanos - b.nanos) by ring,
    Int.neg_tdiv, tmod_neg_dividend]
  exact sinceParts_negate hden hw hv

theorem claim8_witness :
    Clock.since ⟨2000000000⟩ ⟨5000000000⟩ SECOND = some (-3) :=
  claim8_antisymmetry ⟨5000000000⟩ ⟨2000000000⟩ SECOND (by decide) (by decide) 3
    (by decide)

/-- Claim C9 counterexample: for `S = 2^62`, `R = 0` and unit `2/1`
(nonzero denominator, `R` zero, `|R| < 10^9`), the staged computation
wraps at the `as i64` cast to `-2^63`, whereas the single combined
truncated division of the full duration is `+2^63`: the two disagree. -/
theorem claim9_counterexample :
    (Duration.new 2 1).denominator ≠ 0 ∧
    sinceParts 4611686018427387904 0 (Duration.new 2 1)
      = some (-9223372036854775808) ∧
    elapsedCombined 4611686018427387904 0 (Duration.new 2 1)
      = 9223372036854775808 ∧
    sinceParts 4611686018427387904 0 (Duration.new 2 1)
      ≠ some (elapsedCombined 4611686018427387904 0 (Duration.new 2 1)) := by
  exact ⟨by decide, by decide, by decide, by decide⟩

/-- Claim C9 (amended): with a nonzero denominator, `R` of the same sign
as `S` (or zero) with `|R| < 10^9`, and no `i64` wrap of the two quotients
and the final sum, the staged computation of `Clock::since` equals the
single combined truncated division
`trunc(((S·10^9 + R) · unit.seconds) / (unit.denominator · 10^9))`. -/
theorem claim9_staged_eq_combined :
    ∀ (S R : ℤ) (u : Duration), u.denominator ≠ 0 →
      ((0 ≤ S ∧ 0 ≤ R) ∨ (S ≤ 0 ∧ R ≤ 0)) → |R| < 1000000000 →
      sinceNoWrapParts S R u →
      sinceParts S R u = some (elapsedCombined S R u) := by
  intro S R u hden hsign _ hw
  exact sinceParts_eq_combined hden hsign hw

theorem claim9_witness :
    sinceParts 5 500000000 (Duration.new 1 3)
      = some (elapsedCombined 5 500000000 (Duration.new 1 3)) :=
  claim9_staged_eq_combined 5 500000000 (Duration.new 1 3) (by decide)
    (Or.inl (by decide)) (by decide) (by decide)

/-- Claim C10 counterexample: with `a = fromUtc(1,1,1,0,0,0)` and
`b = fromUtc(545,5,30,1,53,4)` (exactly `2^34` seconds later) and the
unit `2^30/1`, the exact elapsed-units value is `2^64`, far beyond `i64`;
the call does not fail — the `as i64` cast silently wraps the quotient to
`0` and `since` returns `some 0`. -/
theorem claim10_counterexample :
    utcNanos 545 5 30 1 53 4 = 17179869184000000000 ∧
    Clock.utc 545 5 30 1 53 4 = Except.ok (some ⟨17179869184000000000⟩) ∧
    elapsedCombined 17179869184 0 (Duration.new 1073741824 1)
      = 18446744073709551616 ∧
    (9223372036854775807 : ℤ) < 18446744073709551616 ∧
    Clock.since ⟨17179869184000000000⟩ ⟨0⟩ (Duration.new 1073741824 1) = some 0 ∧
    Clock.since ⟨17179869184000000000⟩ ⟨0⟩ (Duration.new 1073741824 1) ≠ none := by
  exact ⟨by decide, by decide, by decide, by decide, by decide, by decide⟩

/-- Claim C10 (amended): `Clock::since` never reports overflow: for every
pair of instants and every unit with nonzero denominator it returns a
present value already wrapped into the `i64` range — overflowing
intermediates are silently truncated by the `as i64` casts, never
surfaced as an error. -/
theorem claim10_silent_wrap :
    ∀ (a b : Clock) (u : Duration), u.denominator ≠ 0 →
      ∃ v, Clock.since a b u = some v ∧
        -9223372036854775808 ≤ v ∧ v < 9223372036854775808 := by
  intro a b u hden
  exact since_succeeds hden

theorem claim10_witness :
    ∃ v, Clock.since ⟨86400000000000⟩ ⟨0⟩ MINUTE = some v ∧
      -9223372036854775808 ≤ v ∧ v < 9223372036854775808 :=
  claim10_silent_wrap ⟨86400000000000⟩ ⟨0⟩ MINUTE (by decide)
